import Mathlib

/-!
Shallow embedding of the Manson HCS bench-power-supply driver
(`manson.py`): the fixed-point field codec, the transaction engine
(line collection and response classification), connect-time model
validation, identity memoization, and the preset-memory timeout
handling.  Numeric values are exact rationals; CPython floats are
modelled as the dyadic rationals produced by IEEE-754 binary64
round-to-nearest-even, so float literals and float multiplications
carry their real rounding error.  Serial reads are modelled as the
list of chunks successive `read_until` calls return (an empty chunk
is a timeout with no pending data).
-/

/-- Decimal digit character for a value below 10 (`'*'` outside). -/
def digitChar : ℕ → Char
  | 0 => '0'
  | 1 => '1'
  | 2 => '2'
  | 3 => '3'
  | 4 => '4'
  | 5 => '5'
  | 6 => '6'
  | 7 => '7'
  | 8 => '8'
  | 9 => '9'
  | _ => '*'

/-- Numeric value of a digit character, as `int(c)` sees it. -/
def dval (c : Char) : ℕ := c.toNat - 48

/-- Parse a digit string as an unsigned integer (what `int(...)` does
on the digits a `\d` regex group captured). -/
def digitsToNat (cs : List Char) : ℕ :=
  cs.foldl (fun a c => a * 10 + dval c) 0

/-- Decimal rendering of a natural number, fuel-structured so it
reduces in the kernel.  `natCharsGo (n+1) n` is always adequate. -/
def natCharsGo : ℕ → ℕ → List Char
  | 0, _ => []
  | fuel + 1, n =>
    if n < 10 then [digitChar n]
    else natCharsGo fuel (n / 10) ++ [digitChar (n % 10)]

/-- Decimal rendering of a natural number (`str(n)` for `n >= 0`). -/
def natChars (n : ℕ) : List Char := natCharsGo (n + 1) n

/-- Decimal rendering of an integer (`str(n)`). -/
def intChars (i : ℤ) : List Char :=
  if i < 0 then '-' :: natChars i.natAbs else natChars i.toNat

/-- Python `int()` applied to an exact rational: truncation toward
zero, computed on the reduced numerator/denominator. -/
def pyInt (q : ℚ) : ℤ :=
  if 0 ≤ q.num then ((q.num.toNat / q.den : ℕ) : ℤ)
  else -(((-q.num).toNat / q.den : ℕ) : ℤ)

/-- Left-pad a character list with `'0'` up to width `w`
(the `0>` fill/align of the format spec); longer inputs pass through
unchanged. -/
def padW (w : ℕ) (cs : List Char) : List Char :=
  List.replicate (w - cs.length) '0' ++ cs

/-- Round a positive quotient `a / b` to the nearest integer, ties to
even (the IEEE-754 default rounding). -/
def roundQuot (a b : ℕ) : ℕ :=
  let q := a / b
  let r := a % b
  if 2 * r < b then q
  else if b < 2 * r then q + 1
  else if q % 2 = 0 then q else q + 1

/-- Shift the quotient `a / b` into the binary64 mantissa range
`[2^52, 2^53)` while keeping the represented value `(a / b) * 2 ^ e`
fixed, then round the mantissa to 53 bits; fuel-structured so it
reduces in the kernel (the fuel is ample for every magnitude the
driver handles). -/
def mantShift : ℕ → ℕ → ℕ → ℤ → ℕ × ℤ
  | 0, a, b, e => (a / b, e)
  | fuel + 1, a, b, e =>
    if a / b < 2 ^ 52 then mantShift fuel (2 * a) b (e - 1)
    else if 2 ^ 53 ≤ a / b then mantShift fuel a (2 * b) (e + 1)
    else (roundQuot a b, e)

/-- Mantissa/exponent pair of the binary64 value nearest to the
positive rational `a / b` (normal range only; overflow and subnormals
do not arise at the driver's magnitudes). -/
def roundB64posPair (a b : ℕ) : ℕ × ℤ := mantShift 4096 a b 0

/-- The rational value of a mantissa/exponent pair. -/
def dyadicQ (p : ℕ × ℤ) : ℚ :=
  if 0 ≤ p.2 then ((p.1 * 2 ^ p.2.toNat : ℕ) : ℚ)
  else (p.1 : ℚ) / ((2 ^ (-p.2).toNat : ℕ) : ℚ)

/-- Round a rational to the nearest IEEE-754 binary64 value
(round-to-nearest, ties to even): the rounding CPython applies to
every float literal and to every float arithmetic result. -/
def roundB64 (q : ℚ) : ℚ :=
  if q = 0 then 0
  else if 0 < q then dyadicQ (roundB64posPair q.num.toNat q.den)
  else -dyadicQ (roundB64posPair (-q.num).toNat q.den)

/-- The CPython float nearest to a source-level decimal value: what
the program actually receives when a caller writes that decimal. -/
def pyFloat (q : ℚ) : ℚ := roundB64 q

/-- Model of `_fp_3string`: render a number as a fixed-point string
of 3 digits, `f'\x7bint(num*scale):0>#3\x7d'`.  `num` is a CPython
float (a dyadic rational) and `num*scale` is a float multiplication,
so the exact product is rounded to the nearest binary64 value before
`int()` truncates it. -/
def fp_3string (num scale : ℚ) : String :=
  String.mk (padW 3 (intChars (pyInt (roundB64 (num * scale)))))

/-- Last byte of a read chunk is the CR terminator
(`data_read[-1:] == b'\r'`). -/
def lastIsCR (s : String) : Bool := s.data.getLast? = some '\r'

/-- Result of a successful transaction: `True` (no-data) or the data
line. -/
inductive TransResult
  | noData
  | data (s : String)
  deriving DecidableEq

/-- The driver's failure modes (each a distinct `RuntimeError`
message in the source; `typeErr` is the `TypeError` that
`re.fullmatch` raises when handed the boolean no-data result). -/
inductive PErr
  | incompleteLine (collected : List String) (chunk : String)
  | badResponse (response : List String)
  | unexpectedData (data : String)
  | unexpectedResponse (response : String)
  | typeErr
  | arityErr
  deriving DecidableEq

/-- Python `bytes.rstrip` whitespace set. -/
def isPySpace (c : Char) : Bool :=
  c = ' ' ∨ c = '\t' ∨ c = '\n' ∨ c = '\r' ∨ c = '\x0b' ∨ c = '\x0c'

/-- Model of `data_read.rstrip()`: strip trailing whitespace. -/
def pyRstrip (s : String) : String :=
  String.mk ((s.data.reverse.dropWhile isPySpace).reverse)

/-- The read loop of `_do_transaction`: consume chunks until a read
returns nothing; every chunk must end with the CR terminator, else
the incomplete-line error names the lines collected so far. -/
def collectLines (acc : List String) : List String → Except PErr (List String)
  | [] => .ok acc
  | d :: rest =>
    if d = "" then .ok acc
    else if lastIsCR d then collectLines (acc ++ [pyRstrip d]) rest
    else .error (.incompleteLine acc d)

/-- The response-shape check of `_do_transaction`: 1 or 2 collected
lines, last one the affirmative token, else the bad-response error. -/
def classify (response : List String) : Except PErr TransResult :=
  if (response.length = 1 ∨ response.length = 2) ∧
      response.getLast? = some "OK" then
    if response = ["OK"] then .ok .noData
    else .ok (.data (response.headD ""))
  else .error (.badResponse response)

/-- Model of `_do_transaction` on the chunks the serial port yields. -/
def doTransaction (reads : List String) : Except PErr TransResult :=
  match collectLines [] reads with
  | .ok response => classify response
  | .error e => .error e

/-- Model of `_do_transaction_no_response`: reject any data
payload. -/
def doNoResponse (reads : List String) : Except PErr Unit :=
  match doTransaction reads with
  | .ok .noData => .ok ()
  | .ok (.data s) => .error (.unexpectedData s)
  | .error e => .error e

/-- Model of `re.fullmatch` against a concatenation of fixed-width
digit groups, returning the groups as unsigned integers. -/
def splitW : List ℕ → List Char → Option (List ℕ)
  | [], [] => some []
  | [], _ :: _ => none
  | w :: ws, cs =>
    let g := cs.take w
    if g.length = w ∧ g.all Char.isDigit then
      match splitW ws (cs.drop w) with
      | some ns => some (digitsToNat g :: ns)
      | none => none
    else none

/-- Full-match a string against fixed-width digit groups. -/
def decodeWidths (ws : List ℕ) (s : String) : Option (List ℕ) :=
  splitW ws s.data

/-- Model of `_do_transaction_get_with_regex` for all-digit-group
patterns. -/
def doGetRegex (ws : List ℕ) (reads : List String) : Except PErr (List ℕ) :=
  match doTransaction reads with
  | .error e => .error e
  | .ok .noData => .error .typeErr
  | .ok (.data s) =>
    match decodeWidths ws s with
    | some ns => .ok ns
    | none => .error (.unexpectedResponse s)

/-- Serialize a command plus already-stringified extras, CR-terminated
(`''.join([cmd]+list(map(str, extras))+['\r'])`). -/
def buildCmd (cmd : String) (extras : List String) : String :=
  cmd ++ String.join extras ++ "\r"

/-- The line `set_target_current` writes. -/
def setTargetCurrentCmd (current cFactor : ℚ) : String :=
  buildCmd "CURR" [fp_3string current cFactor]

/-- The wire form of the output-enable flag: the device speaks
"suppressed", so `0 if enabled else 1`. -/
def suppressFlag (enabled : Bool) : ℕ := if enabled then 0 else 1

/-- The line `set_output_power_enabled` writes. -/
def setOutputCmd (enabled : Bool) : String :=
  buildCmd "SOUT" [String.mk (natChars (suppressFlag enabled))]

/-- The line `set_target_voltage_current_and_output_enabled`
writes. -/
def sevcCmd (voltage current cFactor : ℚ) (enabled : Bool) : String :=
  buildCmd "SEVC"
    [fp_3string voltage 10, fp_3string current cFactor,
     String.mk (natChars (suppressFlag enabled))]

/-- The `GOUT` lookup table of `get_output_power_enabled`:
wire token to positive "enabled" semantic. -/
def goutDict (response : String) : Option Bool :=
  if response = "0" then some true
  else if response = "1" then some false
  else none

/-- Decode step of `get_maximum_voltage_and_current` on an already-validated
payload: pattern `(\d\x7b3\x7d)(\d\x7b3\x7d)`, then `v/10` and
`c/c_factor`. -/
def gmaxDecode (payload : String) (cFactor : ℚ) : Except PErr (ℚ × ℚ) :=
  match decodeWidths [3, 3] payload with
  | some [v, c] => .ok ((v : ℚ) / 10, (c : ℚ) / cFactor)
  | _ => .error (.unexpectedResponse payload)

/-- Decode step of `get_display_voltage_current_and_mode` on an
already-validated payload: pattern
`(\d\x7b4\x7d)(\d\x7b4\x7d)([01])`, both numeric fields divided by
100, mode flag indexing `['CV', 'CC']`. -/
def getdDecode (payload : String) : Except PErr (ℚ × ℚ × String) :=
  if payload.data.length = 9 ∧ (payload.data.take 4).all Char.isDigit ∧
      ((payload.data.drop 4).take 4).all Char.isDigit ∧
      (payload.data.drop 8 = ['0'] ∨ payload.data.drop 8 = ['1']) then
    .ok ((digitsToNat (payload.data.take 4) : ℚ) / 100,
         (digitsToNat ((payload.data.drop 4).take 4) : ℚ) / 100,
         if payload.data.drop 8 = ['0'] then "CV" else "CC")
  else .error (.unexpectedResponse payload)

/-- Single-field decode `(\d\x7b3\x7d)` with a caller-side scale
(`get_over_voltage_limit` / `get_over_current_limit` shape). -/
def decode3q (payload : String) (scale : ℚ) : Option ℚ :=
  match decodeWidths [3] payload with
  | some [n] => some ((n : ℚ) / scale)
  | _ => none

/-- The model allow-list checked by `connect`. -/
def supportedModels : List String := ["HCS-3102", "HCS-3014", "HCS-3204"]

/-- The connect-time validation and scaling-factor selection: raise
unless the model is allow-listed and the version is `REV3.3`,
otherwise pick the family scaling factor. -/
def connectValidate (model version : String) : Except (String × String) ℕ :=
  if model ∉ supportedModels ∨ version ≠ "REV3.3" then
    .error (model, version)
  else
    .ok (if model ∈ supportedModels then 100 else 10)

/-- One call of `model()` / `version()` : `if not self._model:` caches
only truthy values, so `none` and the empty string both trigger a
fresh transaction.  Returns the value handed to the caller, the new
cache state, and the number of transactions this call issued. -/
def memoCall (cached : Option String) (fetched : String) :
    String × Option String × ℕ :=
  match cached with
  | none => (fetched, some fetched, 1)
  | some m => if m = "" then (fetched, some fetched, 1) else (m, some m, 0)

/-- Run `n` successive `model()` calls against a device that always
reports `fetched`: final cache state and total transaction count. -/
def memoCalls (fetched : String) : ℕ → Option String × ℕ
  | 0 => (none, 0)
  | n + 1 =>
    let p := memoCalls fetched n
    let r := memoCall p.1 fetched
    (r.2.1, p.2 + r.2.2)

/-- The serial-port state the preset commands mutate: the base read
timeout (`sp.timeout`), in seconds as an exact rational. -/
structure SP where
  timeout : ℚ
  deriving DecidableEq

/-- Model of `get_preset_memories`: widen `sp.timeout` to 0.5, run the `GETM`
transaction plus regex decode, and write 0.1 back only when no
exception escaped (the source has no try/finally). -/
def get_preset_memories (_sp : SP) (reads : List String) (cFactor : ℚ) :
    Except PErr (List ℚ) × SP :=
  let sp1 : SP := ⟨1/2⟩
  match doGetRegex [3, 3, 3, 3, 3, 3] reads with
  | .error e => (.error e, sp1)
  | .ok [v0, c0, v1, c1, v2, c2] =>
    (.ok [(v0 : ℚ) / 10, (c0 : ℚ) / cFactor, (v1 : ℚ) / 10,
          (c1 : ℚ) / cFactor, (v2 : ℚ) / 10, (c2 : ℚ) / cFactor],
     ⟨1/10⟩)
  | .ok _ => (.error .arityErr, sp1)

/-- Model of `set_preset_memories`: same timeout pattern around the no-data
`PROM` transaction. -/
def set_preset_memories (_sp : SP) (reads : List String) :
    Except PErr Unit × SP :=
  let sp1 : SP := ⟨1/2⟩
  match doNoResponse reads with
  | .error e => (.error e, sp1)
  | .ok () => (.ok (), ⟨1/10⟩)

deriving instance DecidableEq for Except

/-! ### Helper lemmas -/

/-- Evaluating `pyInt` on an embedded natural number gives that
number. -/
theorem pyInt_natCast (n : ℕ) : pyInt (n : ℚ) = n := by
  simp [pyInt]

/-- Numerator and denominator of a quotient of coprime naturals. -/
theorem num_den_div_coprime (a b : ℕ) (hb : 0 < b) (h : Nat.Coprime a b) :
    ((a : ℚ) / (b : ℚ)).num = (a : ℤ) ∧ ((a : ℚ) / (b : ℚ)).den = b := by
  have hcast : ((a : ℚ)) / ((b : ℚ)) = (((a : ℤ) : ℚ)) / (((b : ℤ) : ℚ)) := by
    push_cast
    ring
  constructor
  · rw [hcast]
    exact Rat.num_div_eq_of_coprime (by exact_mod_cast hb) (by simpa using h)
  · rw [hcast]
    have hd := Rat.den_div_eq_of_coprime (a := (a : ℤ)) (b := (b : ℤ))
      (by exact_mod_cast hb) (by simpa using h)
    simpa using hd

/-- Evaluate `roundB64` through an explicitly reduced input fraction
and a precomputed mantissa/exponent pair. -/
theorem roundB64_concrete (q : ℚ) (a b m k : ℕ) (ha : 0 < a) (hb : 0 < b)
    (hcop : Nat.Coprime a b) (hq : q = (a : ℚ) / (b : ℚ))
    (hpair : roundB64posPair a b = (m, -(k : ℤ))) (hk : 0 < k) :
    roundB64 q = (m : ℚ) / ((2 ^ k : ℕ) : ℚ) := by
  obtain ⟨hnum, hden⟩ := num_den_div_coprime a b hb hcop
  subst hq
  have hq0 : 0 < (a : ℚ) / (b : ℚ) :=
    div_pos (by exact_mod_cast ha) (by exact_mod_cast hb)
  have hd : dyadicQ (m, -(k : ℤ)) = (m : ℚ) / ((2 ^ k : ℕ) : ℚ) := by
    have hcond : ¬ ((0 : ℤ) ≤ (m, -(k : ℤ)).2) := by
      show ¬ ((0 : ℤ) ≤ -(k : ℤ))
      omega
    rw [dyadicQ, if_neg hcond]
    show ((m : ℚ)) / ((2 ^ (-(-(k : ℤ))).toNat : ℕ) : ℚ) = _
    rw [neg_neg, Int.toNat_natCast]
  rw [roundB64, if_neg hq0.ne.symm, if_pos hq0, hnum, hden,
    Int.toNat_natCast, hpair, hd]

/-- Evaluate `pyInt` through an explicitly reduced nonnegative
fraction. -/
theorem pyInt_eval (q : ℚ) (a b : ℕ) (hb : 0 < b) (hcop : Nat.Coprime a b)
    (hq : q = (a : ℚ) / (b : ℚ)) : pyInt q = ((a / b : ℕ) : ℤ) := by
  obtain ⟨hnum, hden⟩ := num_den_div_coprime a b hb hcop
  subst hq
  rw [pyInt, hnum, hden, if_pos (Int.natCast_nonneg a), Int.toNat_natCast]

/-- Rewrite `fp_3string` once the rounded, truncated scaled value is
a known natural. -/
theorem fp_3string_eval (num scale : ℚ) (n : ℕ)
    (h : pyInt (roundB64 (num * scale)) = (n : ℤ)) :
    fp_3string num scale = String.mk (padW 3 (natChars n)) := by
  rw [fp_3string, h, intChars, if_neg (by omega), Int.toNat_natCast]

/-- Digit characters below 10 satisfy the `\d` class. -/
theorem digitChar_isDigit (m : ℕ) (h : m < 10) :
    (digitChar m).isDigit = true := by
  interval_cases m <;> decide

/-- The map `dval` inverts `digitChar` below 10. -/
theorem dval_digitChar (m : ℕ) (h : m < 10) : dval (digitChar m) = m := by
  interval_cases m <;> decide

/-- Appending one digit multiplies the parsed value by 10. -/
theorem digitsToNat_append_digit (xs : List Char) (c : Char) :
    digitsToNat (xs ++ [c]) = digitsToNat xs * 10 + dval c := by
  simp [digitsToNat, List.foldl_append]

/-- Parsing the rendering of `n` recovers `n`, given adequate fuel. -/
theorem natCharsGo_digitsToNat (fuel : ℕ) :
    ∀ n, n < 10 ^ fuel → digitsToNat (natCharsGo fuel n) = n := by
  induction fuel with
  | zero =>
    intro n h
    have hn : n = 0 := by omega
    subst hn
    decide
  | succ fuel ih =>
    intro n h
    rw [natCharsGo]
    by_cases h10 : n < 10
    · rw [if_pos h10]
      have := dval_digitChar n h10
      simp [digitsToNat, this]
    · rw [if_neg h10, digitsToNat_append_digit]
      have hdiv : n / 10 < 10 ^ fuel := by
        apply Nat.div_lt_of_lt_mul
        calc n < 10 ^ (fuel + 1) := h
          _ = 10 * 10 ^ fuel := by ring
      rw [ih (n / 10) hdiv, dval_digitChar (n % 10) (Nat.mod_lt n (by norm_num))]
      omega

/-- Parsing the rendering of `n` recovers `n`. -/
theorem digitsToNat_natChars (n : ℕ) : digitsToNat (natChars n) = n :=
  natCharsGo_digitsToNat (n + 1) n
    (lt_of_lt_of_le (Nat.lt_pow_self (by norm_num) n)
      (Nat.pow_le_pow_right (by norm_num) (Nat.le_succ n)))

/-- Every character `natCharsGo` outputs is a digit. -/
theorem natCharsGo_all_digits (fuel : ℕ) :
    ∀ n, (natCharsGo fuel n).all Char.isDigit = true := by
  induction fuel with
  | zero => intro n; rfl
  | succ fuel ih =>
    intro n
    rw [natCharsGo]
    by_cases h10 : n < 10
    · rw [if_pos h10]
      simp [digitChar_isDigit n h10]
    · rw [if_neg h10]
      simp [List.all_append, ih, digitChar_isDigit (n % 10) (Nat.mod_lt n (by norm_num))]

/-- The rendering of `n < 10 ^ (j + 1)` has at most `j + 1` digits. -/
theorem natCharsGo_length (fuel : ℕ) :
    ∀ j n, n < 10 ^ (j + 1) → (natCharsGo fuel n).length ≤ j + 1 := by
  induction fuel with
  | zero => intro j n _; simp [natCharsGo]
  | succ fuel ih =>
    intro j n h
    rw [natCharsGo]
    by_cases h10 : n < 10
    · rw [if_pos h10]; simp
    · rw [if_neg h10]
      rcases j with _ | j2
      · exfalso
        norm_num at h
        omega
      · have hdiv : n / 10 < 10 ^ (j2 + 1) := by
          apply Nat.div_lt_of_lt_mul
          calc n < 10 ^ (j2 + 2) := h
            _ = 10 * 10 ^ (j2 + 1) := by ring
        have := ih j2 (n / 10) hdiv
        simp [List.length_append]
        omega

/-- Left-padding with zeros gives the requested width. -/
theorem padW_length (w : ℕ) (cs : List Char) (h : cs.length ≤ w) :
    (padW w cs).length = w := by
  simp [padW]
  omega

/-- Left-padding with zeros keeps the all-digits property. -/
theorem padW_all_digits (w : ℕ) (cs : List Char)
    (h : cs.all Char.isDigit = true) :
    (padW w cs).all Char.isDigit = true := by
  simp only [padW, List.all_append, h, Bool.and_true]
  simp [List.all_eq_true, List.mem_replicate]

/-- Leading zeros do not change the parsed value. -/
theorem foldl_digits_replicate_zero (k : ℕ) :
    List.foldl (fun a c => a * 10 + dval c) 0 (List.replicate k '0') = 0 := by
  induction k with
  | zero => rfl
  | succ k ih => simpa [List.replicate_succ, dval] using ih

/-- Left-padding with zeros does not change the parsed value. -/
theorem digitsToNat_padW (w : ℕ) (cs : List Char) :
    digitsToNat (padW w cs) = digitsToNat cs := by
  simp [padW, digitsToNat, List.foldl_append, foldl_digits_replicate_zero]

/-- A padded field of width `w ≥ 1` for `n < 10 ^ w`: exact width, all
digits, parses back to `n`. -/
theorem paddedField (w n : ℕ) (hw : 1 ≤ w) (h : n < 10 ^ w) :
    (padW w (natChars n)).length = w ∧
    (padW w (natChars n)).all Char.isDigit = true ∧
    digitsToNat (padW w (natChars n)) = n := by
  obtain ⟨j, rfl⟩ : ∃ j, w = j + 1 := ⟨w - 1, by omega⟩
  exact ⟨padW_length _ _ (natCharsGo_length _ j n h),
    padW_all_digits _ _ (natCharsGo_all_digits _ n),
    by rw [digitsToNat_padW, digitsToNat_natChars]⟩

/-- One step of the fixed-width group split on a well-formed prefix. -/
theorem splitW_cons (w : ℕ) (ws : List ℕ) (xs ys : List Char)
    (hl : xs.length = w) (hd : xs.all Char.isDigit = true) :
    splitW (w :: ws) (xs ++ ys) =
      match splitW ws ys with
      | some ns => some (digitsToNat xs :: ns)
      | none => none := by
  have ht : (xs ++ ys).take w = xs := by rw [← hl, List.take_left]
  have hdr : (xs ++ ys).drop w = ys := by rw [← hl, List.drop_left]
  rw [splitW]
  simp only [ht, hdr]
  rw [if_pos ⟨hl, hd⟩]

/-- A single well-formed group fully matches. -/
theorem splitW_single (w : ℕ) (xs : List Char)
    (hl : xs.length = w) (hd : xs.all Char.isDigit = true) :
    splitW [w] xs = some [digitsToNat xs] := by
  have := splitW_cons w [] xs [] hl hd
  simpa using this

/-! ### Claims -/

/-- Counterexample to C2 as stated: at the representable value 0.29 A
(scale 100) the program encodes `028` — the binary64 value nearest to
0.29 is 5224175567749775/2^54, its float product with 100 rounds to
8162774324609023/2^48 = 28.999999999999996..., and `int()` truncates
that to 28 — so decode(encode(0.29)) is 0.28, not 0.29. -/
theorem c2_roundtrip_counterexample :
    decode3q (fp_3string (pyFloat ((29 : ℚ) / 100)) 100) 100 =
      some ((28 : ℚ) / 100) ∧
    some ((28 : ℚ) / 100) ≠ some ((29 : ℚ) / 100) := by
  constructor
  · have hfl : pyFloat ((29 : ℚ) / 100) =
        (5224175567749775 : ℚ) / ((2 ^ 54 : ℕ) : ℚ) := by
      rw [pyFloat]
      exact roundB64_concrete _ 29 100 5224175567749775 54 (by norm_num)
        (by norm_num) (by norm_num) (by push_cast; ring) (by decide)
        (by norm_num)
    have hprod : pyFloat ((29 : ℚ) / 100) * 100 =
        ((130604389193744375 : ℕ) : ℚ) / ((4503599627370496 : ℕ) : ℚ) := by
      rw [hfl]
      push_cast
      norm_num
    have hr2 : roundB64 (pyFloat ((29 : ℚ) / 100) * 100) =
        (8162774324609023 : ℚ) / ((2 ^ 48 : ℕ) : ℚ) :=
      roundB64_concrete _ 130604389193744375 4503599627370496
        8162774324609023 48 (by norm_num) (by norm_num) (by norm_num) hprod
        (by decide) (by norm_num)
    have hint : pyInt (roundB64 (pyFloat ((29 : ℚ) / 100) * 100)) =
        ((28 : ℕ) : ℤ) := by
      rw [hr2, pyInt_eval _ 8162774324609023 281474976710656 (by norm_num)
        (by norm_num) (by push_cast; norm_num)]
    rw [fp_3string_eval _ _ 28 hint]
    have key : decodeWidths [3] (String.mk (padW 3 (natChars 28))) =
        some [28] := by decide
    rw [decode3q, key]
    show some (((28 : ℕ) : ℚ) / 100) = some ((28 : ℚ) / 100)
    norm_num
  · simp only [ne_eq, Option.some.injEq]
    norm_num

/-- Claim C2 (amended): the 3-digit fixed-point rendering and digit
parsing round-trip exactly whenever the IEEE-754 scaling step
recovers the scaled integer: for `v = n / scale` with `n < 1000` and
scale 10 or 100, if `int(float(v) * scale) = n` — `float(v)` the
binary64 value nearest `v` and `*` a binary64 multiplication — then
decoding the encoded wire string yields `v` exactly.  CPython's float
truncation breaks the unconditional claim for 69 of the 1000
scale-100 values (the smallest is 0.29); every scale-10 value
satisfies the hypothesis. -/
theorem c2_fixed_point_roundtrip (n : ℕ) (hn : n < 1000) (scale : ℚ)
    (_hscale : scale = 10 ∨ scale = 100)
    (hfloat : pyInt (roundB64 (pyFloat ((n : ℚ) / scale) * scale)) =
      (n : ℤ)) :
    decode3q (fp_3string (pyFloat ((n : ℚ) / scale)) scale) scale =
      some ((n : ℚ) / scale) := by
  rw [fp_3string_eval _ _ n hfloat]
  obtain ⟨hlen, hdig, hval⟩ := paddedField 3 n (by norm_num) (by norm_num; omega)
  have key : decodeWidths [3] (String.mk (padW 3 (natChars n))) = some [n] := by
    show splitW [3] (padW 3 (natChars n)) = some [n]
    rw [splitW_single 3 _ hlen hdig, hval]
  rw [decode3q, key]

/-- Witness for amended C2 at the representable value 1.25 A (scale
100), whose float scaling step is exact. -/
theorem c2_fixed_point_roundtrip_witness :
    decode3q (fp_3string (pyFloat (((125 : ℕ) : ℚ) / 100)) 100) 100 =
      some (((125 : ℕ) : ℚ) / 100) := by
  have hfl : pyFloat (((125 : ℕ) : ℚ) / 100) =
      (5629499534213120 : ℚ) / ((2 ^ 52 : ℕ) : ℚ) := by
    rw [pyFloat]
    exact roundB64_concrete _ 5 4 5629499534213120 52 (by norm_num)
      (by norm_num) (by norm_num) (by push_cast; norm_num) (by decide)
      (by norm_num)
  have hprod : pyFloat (((125 : ℕ) : ℚ) / 100) * 100 =
      ((125 : ℕ) : ℚ) / ((1 : ℕ) : ℚ) := by
    rw [hfl]
    push_cast
    norm_num
  have hr2 : roundB64 (pyFloat (((125 : ℕ) : ℚ) / 100) * 100) =
      (8796093022208000 : ℚ) / ((2 ^ 46 : ℕ) : ℚ) :=
    roundB64_concrete _ 125 1 8796093022208000 46 (by norm_num) (by norm_num)
      (by norm_num) hprod (by decide) (by norm_num)
  have hfloat : pyInt (roundB64 (pyFloat (((125 : ℕ) : ℚ) / 100) * 100)) =
      ((125 : ℕ) : ℤ) := by
    rw [hr2]
    have he : (8796093022208000 : ℚ) / ((2 ^ 46 : ℕ) : ℚ) =
        (((125 : ℕ) : ℚ)) := by
      push_cast
      norm_num
    rw [he, pyInt_natCast]
  exact c2_fixed_point_roundtrip 125 (by norm_num) 100 (Or.inr rfl) hfloat

/-- Claim C3: for the input current 10.0 A at scale 100 the scaled
magnitude needs 4 digits, and the fixed-point encoder returns a
4-character field without any error, so `set_target_current` emits
the malformed command line `CURR1000\r` instead of rejecting the
value. -/
theorem c3_encoder_overflow_silent :
    fp_3string 10 100 = "1000" ∧ (fp_3string 10 100).length = 4 ∧
    setTargetCurrentCmd 10 100 = "CURR1000\r" := by
  have hr : roundB64 ((10 : ℚ) * 100) =
      (8796093022208000 : ℚ) / ((2 ^ 43 : ℕ) : ℚ) :=
    roundB64_concrete _ 1000 1 8796093022208000 43 (by norm_num) (by norm_num)
      (by norm_num) (by push_cast; norm_num) (by decide) (by norm_num)
  have hint : pyInt (roundB64 ((10 : ℚ) * 100)) = ((1000 : ℕ) : ℤ) := by
    rw [hr]
    have he : (8796093022208000 : ℚ) / ((2 ^ 43 : ℕ) : ℚ) =
        (((1000 : ℕ) : ℚ)) := by
      push_cast
      norm_num
    rw [he, pyInt_natCast]
  have h : fp_3string 10 100 = String.mk (padW 3 (natChars 1000)) :=
    fp_3string_eval 10 100 1000 hint
  refine ⟨?_, ?_, ?_⟩
  · rw [h]; decide
  · rw [h]; decide
  · simp only [setTargetCurrentCmd, buildCmd, h]; decide

/-- Claim C8: decoded numeric fields are scaled with voltage divided
by 10 and current by the session scaling factor in the 6-digit `GMAX`
payload, and both `GETD` display fields divided by 100 regardless of
family; in particular payload `120240` at factor 100 decodes to
`(12.0, 2.40)`. -/
theorem c8_field_scaling :
    (∀ (a b : ℕ), a < 1000 → b < 1000 → ∀ cf : ℚ,
        gmaxDecode (String.mk (padW 3 (natChars a) ++ padW 3 (natChars b))) cf =
          .ok ((a : ℚ) / 10, (b : ℚ) / cf))
  ∧ (∀ (a b m : ℕ), a < 10000 → b < 10000 → m < 2 →
        getdDecode (String.mk
            (padW 4 (natChars a) ++ (padW 4 (natChars b) ++ [digitChar m]))) =
          .ok ((a : ℚ) / 100, (b : ℚ) / 100, if m = 0 then "CV" else "CC"))
  ∧ gmaxDecode "120240" 100 = .ok (12, 12/5) := by
  refine ⟨?_, ?_, ?_⟩
  · intro a b ha hb cf
    obtain ⟨hla, hda, hva⟩ := paddedField 3 a (by norm_num) (by norm_num; omega)
    obtain ⟨hlb, hdb, hvb⟩ := paddedField 3 b (by norm_num) (by norm_num; omega)
    have key : decodeWidths [3, 3]
        (String.mk (padW 3 (natChars a) ++ padW 3 (natChars b))) =
        some [a, b] := by
      show splitW [3, 3] (padW 3 (natChars a) ++ padW 3 (natChars b)) =
        some [a, b]
      rw [splitW_cons 3 [3] _ _ hla hda,
        splitW_single 3 _ hlb hdb, hva, hvb]
    rw [gmaxDecode, key]
  · intro a b m ha hb hm
    obtain ⟨hla, hda, hva⟩ := paddedField 4 a (by norm_num) (by norm_num; omega)
    obtain ⟨hlb, hdb, hvb⟩ := paddedField 4 b (by norm_num) (by norm_num; omega)
    set xs := padW 4 (natChars a) with hxs
    set ys := padW 4 (natChars b) with hys
    have hdata : (String.mk (xs ++ (ys ++ [digitChar m]))).data =
        xs ++ (ys ++ [digitChar m]) := rfl
    have htake : (xs ++ (ys ++ [digitChar m])).take 4 = xs := by
      rw [← hla, List.take_left]
    have hdrop : (xs ++ (ys ++ [digitChar m])).drop 4 = ys ++ [digitChar m] := by
      rw [← hla, List.drop_left]
    have htake2 : (ys ++ [digitChar m]).take 4 = ys := by
      rw [← hlb, List.take_left]
    have hdrop8 : (xs ++ (ys ++ [digitChar m])).drop 8 = [digitChar m] := by
      have h44 : (8 : ℕ) = 4 + 4 := rfl
      rw [h44, ← List.drop_drop, hdrop, ← hlb, List.drop_left]
    have hlen : (xs ++ (ys ++ [digitChar m])).length = 9 := by
      simp [List.length_append, hla, hlb]
    interval_cases m
    · rw [getdDecode]
      simp only [hdata, htake, hdrop, htake2, hdrop8]
      have he : ([digitChar 0] : List Char) = ['0'] := by decide
      rw [if_pos ⟨hlen, hda, hdb, Or.inl he⟩, hva, hvb, if_pos he]
      simp
    · rw [getdDecode]
      simp only [hdata, htake, hdrop, htake2, hdrop8]
      have hne : ([digitChar 1] : List Char) ≠ ['0'] := by decide
      rw [if_pos ⟨hlen, hda, hdb, Or.inr rfl⟩, hva, hvb, if_neg hne]
      simp
  · have key : decodeWidths [3, 3] "120240" = some [120, 240] := by decide
    rw [gmaxDecode, key]
    norm_num

/-- Witness for C8 at `GMAX` payload fields 120 and 240, factor 100. -/
theorem c8_field_scaling_witness :
    gmaxDecode (String.mk (padW 3 (natChars 120) ++ padW 3 (natChars 240))) 100 =
      .ok (((120 : ℕ) : ℚ) / 10, ((240 : ℕ) : ℚ) / 100) :=
  c8_field_scaling.1 120 240 (by norm_num) (by norm_num) 100

/-- Claim C4: a collected line set of size other than 1 or 2, or whose
last element is not the affirmative token `OK`, makes the transaction
raise the bad-response protocol error and never return a value; the
sole line `OK` yields the no-data result, and two lines ending in `OK`
yield the first line as the data payload. -/
theorem c4_response_classification :
    (∀ resp : List String,
        ((resp.length ≠ 1 ∧ resp.length ≠ 2) ∨ resp.getLast? ≠ some "OK") →
        classify resp = .error (.badResponse resp))
  ∧ classify ["OK"] = .ok .noData
  ∧ (∀ d, classify [d, "OK"] = .ok (.data d)) := by
  refine ⟨?_, by decide, ?_⟩
  · intro resp h
    rw [classify, if_neg]
    rintro ⟨hc1, hc2⟩
    rcases h with ⟨h1, h2⟩ | h
    · rcases hc1 with h | h <;> [exact h1 h; exact h2 h]
    · exact h hc2
  · intro d
    have hlast : ([d, "OK"] : List String).getLast? = some "OK" := by
      rw [show ([d, "OK"] : List String) = [d] ++ ["OK"] from rfl,
        List.getLast?_concat]
    rw [classify, if_pos ⟨Or.inr rfl, hlast⟩, if_neg (by simp)]
    rfl

/-- Witness for C4 at the malformed single-line response `ERR`. -/
theorem c4_response_classification_witness :
    classify ["ERR"] = .error (.badResponse ["ERR"]) :=
  c4_response_classification.1 ["ERR"] (Or.inr (by decide))

/-- Any prefix of complete nonempty lines followed by a chunk without
the CR terminator makes the read loop fail, naming the stripped lines
collected so far (generalized over the accumulator). -/
theorem collectLines_incomplete (d : String) (rest : List String)
    (hd : d ≠ "") (hcr : lastIsCR d = false) :
    ∀ (pre acc : List String), (∀ x ∈ pre, x ≠ "" ∧ lastIsCR x = true) →
      collectLines acc (pre ++ d :: rest) =
        .error (.incompleteLine (acc ++ pre.map pyRstrip) d) := by
  intro pre
  induction pre with
  | nil =>
    intro acc _
    simp only [List.nil_append, List.map_nil, List.append_nil]
    rw [collectLines, if_neg hd, if_neg (by simp [hcr])]
  | cons x pre ih =>
    intro acc hpre
    obtain ⟨hx1, hx2⟩ := hpre x (List.mem_cons_self x pre)
    rw [List.cons_append, collectLines, if_neg hx1, if_pos hx2,
      ih (acc ++ [pyRstrip x]) (fun y hy => hpre y (List.mem_cons_of_mem x hy))]
    simp

/-- Claim C5: if any collected response line does not end with the
carriage-return terminator, the transaction raises a protocol error
that names the (stripped) lines already collected before the
offending read; the offending line is never tolerated. -/
theorem c5_incomplete_line (pre : List String) (d : String)
    (rest : List String)
    (hpre : ∀ x ∈ pre, x ≠ "" ∧ lastIsCR x = true)
    (hd : d ≠ "") (hcr : lastIsCR d = false) :
    collectLines [] (pre ++ d :: rest) =
      .error (.incompleteLine (pre.map pyRstrip) d) := by
  have := collectLines_incomplete d rest hd hcr pre [] hpre
  simpa using this

/-- Witness for C5: a complete line `A\r` followed by the
terminator-less chunk `B`. -/
theorem c5_incomplete_line_witness :
    collectLines [] (["A\r"] ++ "B" :: []) =
      .error (.incompleteLine ["A"] "B") :=
  (c5_incomplete_line ["A\r"] "B" [] (by decide) (by decide)
    (by decide)).trans (by decide)

/-- Claim C6: `connect` raises the unsupported-device error exactly
when the reported model is outside the allow-list
(HCS-3102/HCS-3014/HCS-3204) or the version differs from `REV3.3`;
on success it selects the family scaling factor 100. -/
theorem c6_connect_validation :
    (∀ m v, connectValidate m v = .error (m, v) ↔
        (m ∉ supportedModels ∨ v ≠ "REV3.3"))
  ∧ (∀ m v, m ∈ supportedModels → v = "REV3.3" →
        connectValidate m v = .ok 100) := by
  constructor
  · intro m v
    rw [connectValidate]
    by_cases h : m ∉ supportedModels ∨ v ≠ "REV3.3"
    · rw [if_pos h]
      simp [h]
    · rw [if_neg h]
      simp [h]
  · intro m v hm hv
    rw [connectValidate, if_neg (by push_neg; exact ⟨hm, hv⟩), if_pos hm]

/-- Witness for C6 at the supported identity (HCS-3102, REV3.3). -/
theorem c6_connect_validation_witness :
    connectValidate "HCS-3102" "REV3.3" = .ok 100 :=
  c6_connect_validation.2 "HCS-3102" "REV3.3" (by decide) rfl

/-- Claim C7: the output-enable flag travels inverted: the `SOUT` and
`SEVC` command lines encode `0` when enabled and `1` when disabled,
and the `GOUT` table decodes wire token `0` to `True` and `1` to
`False`, so callers only see the positive semantic. -/
theorem c7_output_flag_inversion :
    (∀ e, setOutputCmd e = "SOUT" ++ (if e then "0" else "1") ++ "\r")
  ∧ (∀ (v c cf : ℚ) (e : Bool),
        sevcCmd v c cf e =
          "SEVC" ++ fp_3string v 10 ++ fp_3string c cf ++
            (if e then "0" else "1") ++ "\r")
  ∧ goutDict "0" = some true ∧ goutDict "1" = some false
  ∧ (∀ e, goutDict (if e then "0" else "1") = some e) := by
  refine ⟨?_, ?_, by decide, by decide, ?_⟩
  · intro e; cases e <;> decide
  · intro v c cf e
    have h0 : String.mk (natChars (suppressFlag true)) = "0" := by decide
    have h1 : String.mk (natChars (suppressFlag false)) = "1" := by decide
    cases e <;>
      simp [sevcCmd, buildCmd, String.join, h0, h1, String.empty_append,
        String.append_assoc]
  · intro e; cases e <;> decide

/-- Counterexample to C9 as stated: against a device whose `GMOD`
reply is the empty string, two `model()` calls issue two transactions,
because the cache check uses Python truthiness and never stores an
empty string. -/
theorem c9_memoization_counterexample : ¬ (memoCalls "" 2).2 ≤ 1 := by decide

/-- Claim C9 (amended): provided the queried identity string is
non-empty — true for every allow-listed model and the supported
version — any number of `model()` / `version()` calls issues at most
one transaction; the first call caches and later calls hit the
cache. -/
theorem c9_memoization_amended (s : String) (hs : s ≠ "") (n : ℕ) :
    (memoCalls s n).2 ≤ 1 := by
  have key : ∀ k, memoCalls s (k + 1) = (some s, 1) := by
    intro k
    induction k with
    | zero => rfl
    | succ k ih =>
      rw [memoCalls, ih]
      simp [memoCall, hs]
  cases n with
  | zero => exact Nat.zero_le 1
  | succ k => rw [key k]

/-- Witness for amended C9: five calls against model `HCS-3102`. -/
theorem c9_memoization_amended_witness : (memoCalls "HCS-3102" 5).2 ≤ 1 :=
  c9_memoization_amended "HCS-3102" (by decide) 5

/-- Claim C10: every successful `connect` selects scaling factor
exactly 100: the allow-list it validates against is the same list
that selects the 100-scale family, so the reserved factor-10 branch
is unreachable. -/
theorem c10_factor_always_100 (m v : String) (f : ℕ)
    (h : connectValidate m v = .ok f) : f = 100 := by
  rw [connectValidate] at h
  by_cases hc : m ∉ supportedModels ∨ v ≠ "REV3.3"
  · rw [if_pos hc] at h
    exact absurd h (by simp)
  · rw [if_neg hc] at h
    push_neg at hc
    rw [if_pos hc.1] at h
    exact (Except.ok.inj h).symm

/-- Witness for C10 at the supported identity (HCS-3102, REV3.3). -/
theorem c10_factor_always_100_witness :
    connectValidate "HCS-3102" "REV3.3" = .ok 100 ∧ (100 : ℕ) = 100 :=
  ⟨by decide, c10_factor_always_100 "HCS-3102" "REV3.3" 100 (by decide)⟩

/-- Claim C1 fails on the code: `get_preset_memories` and
`set_preset_memories` widen the base read timeout to 0.5 s, but the
restore to 0.1 s runs only after a successful transaction — there is
no try/finally — so when the transaction raises (here: a bad response
`X\r`) the timeout is left at 0.5 s, not the prior 0.1 s; only the
success path writes 0.1 s back. -/
theorem c1_preset_timeout_not_restored_on_error :
    ((get_preset_memories ⟨1/10⟩ ["X\r"] 100).1 =
        .error (.badResponse ["X"])
      ∧ (get_preset_memories ⟨1/10⟩ ["X\r"] 100).2.timeout = 1/2)
  ∧ ((set_preset_memories ⟨1/10⟩ ["X\r"]).1 = .error (.badResponse ["X"])
      ∧ (set_preset_memories ⟨1/10⟩ ["X\r"]).2.timeout = 1/2)
  ∧ (get_preset_memories ⟨1/10⟩
      ["010020030040050060\r", "OK\r"] 100).2.timeout = 1/10
  ∧ (set_preset_memories ⟨1/10⟩ ["OK\r"]).2.timeout = 1/10
  ∧ (1/2 : ℚ) ≠ 1/10 := by
  have hg : doGetRegex [3, 3, 3, 3, 3, 3] ["X\r"] =
      .error (.badResponse ["X"]) := by decide
  have hn : doNoResponse ["X\r"] = .error (.badResponse ["X"]) := by decide
  have hg2 : doGetRegex [3, 3, 3, 3, 3, 3] ["010020030040050060\r", "OK\r"] =
      .ok [10, 20, 30, 40, 50, 60] := by decide
  have hn2 : doNoResponse ["OK\r"] = .ok () := by decide
  refine ⟨⟨?_, ?_⟩, ⟨?_, ?_⟩, ?_, ?_, by norm_num⟩
  · rw [get_preset_memories, hg]
  · rw [get_preset_memories, hg]
  · rw [set_preset_memories, hn]
  · rw [set_preset_memories, hn]
  · rw [get_preset_memories, hg2]
  · rw [set_preset_memories, hn2]
